import Mathlib

/-!
Shallow embedding of the distributed transactional account store
(coordinator.py, data_node.py, common.py).

The participant's account map (a Python dict from account id to integer
balance) is modelled as an association list with Python-dict update
semantics; the coordinator's jsonl transaction log is a list of entries.
Network sends are collected into lists of messages; votes returned by
participants over the network are an oracle parameter.  Wall-clock
timestamps on log entries are elided (they carry no protocol content).
-/

namespace TwoPC

/-- One operation of a transaction: a signed delta to a single account
(`{"account_id": ..., "delta": ...}` in the wire payloads). -/
structure Op where
  account_id : String
  delta : Int
deriving DecidableEq, Repr

/-- A participant's account map: Python dict `account_id -> balance`. -/
abbrev Accounts := List (String × Int)

/-- Python `d.get(k, 0)`. -/
def getD : Accounts → String → Int
  | [], _ => 0
  | (k', v) :: rest, k => if k' = k then v else getD rest k

/-- Python `d[k] = v`: update in place when the key is present, else append. -/
def dictSet {β : Type} (k : String) (v : β) : List (String × β) → List (String × β)
  | [] => [(k, v)]
  | (k', v') :: rest => if k' = k then (k, v) :: rest else (k', v') :: dictSet k v rest

/-- Python `d.pop(k, None)`: drop the entry for `k` when present. -/
def dictPop {β : Type} (k : String) : List (String × β) → List (String × β)
  | [] => []
  | (k', v') :: rest => if k' = k then rest else (k', v') :: dictPop k rest

/-- Python `d.keys()`. -/
def keys {β : Type} (d : List (String × β)) : List String := d.map Prod.fst

/- ------------------------------------------------------------------
Participant (data_node.py)
------------------------------------------------------------------ -/

/-- One record of a participant's `node_<label>_log.jsonl`
(`AccountStore._append_log` call sites). -/
inductive NodeLogRec
  | update (txid account_id : String) (delta old_balance new_balance : Int)
  | prepare_failed (txid reason : String)
  | prepare_ok (txid : String) (operations : List Op)
  | commit (txid : String)
  | commit_failed (txid : String)
  | abort (txid : String)
deriving DecidableEq, Repr

/-- A participant's reply message. -/
inductive Reply
  | voteCommit (txid : String)
  | voteAbort (txid : String)
  | ack (txid status : String)
  | readResult (account_id : String) (balance : Int)
  | errorReply (err : String)
deriving DecidableEq, Repr

/-- `AccountStore.apply_delta`: under the account's lock, refuse a delta that
would drive the balance negative; otherwise write the write-ahead `update`
record and install the new balance.  `none` models the `return False` path. -/
def apply_delta (txid : String) (accounts : Accounts) (account_id : String) (delta : Int) :
    Option (Accounts × NodeLogRec) :=
  if getD accounts account_id + delta < 0 then none
  else some (dictSet account_id (getD accounts account_id + delta) accounts,
             NodeLogRec.update txid account_id delta (getD accounts account_id)
               (getD accounts account_id + delta))

/-- Insertion step of the string sort used below. -/
def insertSorted (a : String) : List String → List String
  | [] => [a]
  | b :: rest => if a ≤ b then a :: b :: rest else b :: insertSorted a rest

/-- Insertion sort on strings, modelling Python `sorted`. -/
def sortStr : List String → List String
  | [] => []
  | a :: rest => insertSorted a (sortStr rest)

/-- `sorted({op["account_id"] for op in ops})` in the PREPARE handler. -/
def sortedTouched (ops : List Op) : List String :=
  sortStr ((ops.map Op.account_id).dedup)

/-- The PREPARE feasibility loop: fold the operations over the shadow map,
failing as soon as a simulated balance goes negative. -/
def simOps : List Op → Accounts → Option Accounts
  | [], temp => some temp
  | op :: rest, temp =>
    if getD temp op.account_id + op.delta < 0 then none
    else simOps rest (dictSet op.account_id (getD temp op.account_id + op.delta) temp)

/-- The shadow map seeded from current balances:
`{k: store.accounts.get(k, 0) for k in accounts}`. -/
def tempSeed (accounts : Accounts) (touched : List String) : Accounts :=
  touched.map (fun k => (k, getD accounts k))

/-- Result of handling one participant request: the account map afterwards,
the records appended to the node log, and the reply sent. -/
structure NodeResult where
  accounts : Accounts
  log : List NodeLogRec
  reply : Reply
deriving DecidableEq, Repr

/-- The PREPARE branch of `handle_connection`.  `held` is the set of
per-account locks currently held by other in-flight transactions; a
non-blocking acquire fails exactly on those. -/
def handle_prepare (txid : String) (ops : List Op) (accounts : Accounts)
    (held : List String) : NodeResult :=
  match (sortedTouched ops).find? (fun a => held.contains a) with
  | some acc =>
      ⟨accounts, [NodeLogRec.prepare_failed txid ("lock_contention_on_" ++ acc)],
       Reply.voteAbort txid⟩
  | none =>
      match simOps ops (tempSeed accounts (sortedTouched ops)) with
      | none =>
          ⟨accounts, [NodeLogRec.prepare_failed txid "insufficient_balance"],
           Reply.voteAbort txid⟩
      | some _ =>
          ⟨accounts, [NodeLogRec.prepare_ok txid ops], Reply.voteCommit txid⟩

/-- The per-operation loop of the COMMIT branch: apply deltas in order,
stopping (`break`) at the first failing `apply_delta`.  Returns the account
map as left by the loop, the `update` records written, and the `ok` flag. -/
def runCommit (txid : String) : List Op → Accounts → Accounts × List NodeLogRec × Bool
  | [], accs => (accs, [], true)
  | op :: rest, accs =>
    match apply_delta txid accs op.account_id op.delta with
    | some (accs', r) =>
        ((runCommit txid rest accs').1, r :: (runCommit txid rest accs').2.1,
         (runCommit txid rest accs').2.2)
    | none => (accs, [], false)

/-- The COMMIT branch of `handle_connection`. -/
def handle_commit (txid : String) (ops : List Op) (accounts : Accounts) : NodeResult :=
  if (runCommit txid ops accounts).2.2 then
    ⟨(runCommit txid ops accounts).1,
     (runCommit txid ops accounts).2.1 ++ [NodeLogRec.commit txid],
     Reply.ack txid "COMMITTED"⟩
  else
    ⟨(runCommit txid ops accounts).1,
     (runCommit txid ops accounts).2.1 ++ [NodeLogRec.commit_failed txid],
     Reply.ack txid "FAILED"⟩

/-- A request arriving at a participant over one TCP connection. -/
inductive NodeMsg
  | prepareMsg (txid : String) (operations : List Op)
  | commitMsg (txid : String) (operations : List Op)
  | abortMsg (txid : String)
  | readMsg (account_id : String)
  | unknownMsg (t : String)
deriving DecidableEq, Repr

/-- `handle_connection` of data_node.py: dispatch one request. -/
def handle_connection (m : NodeMsg) (accounts : Accounts) (held : List String) : NodeResult :=
  match m with
  | NodeMsg.prepareMsg txid ops => handle_prepare txid ops accounts held
  | NodeMsg.commitMsg txid ops => handle_commit txid ops accounts
  | NodeMsg.abortMsg txid =>
      ⟨accounts, [NodeLogRec.abort txid], Reply.ack txid "ABORTED"⟩
  | NodeMsg.readMsg account_id =>
      ⟨accounts, [], Reply.readResult account_id (getD accounts account_id)⟩
  | NodeMsg.unknownMsg t =>
      ⟨accounts, [], Reply.errorReply ("Unknown message type " ++ t)⟩

/-- Reference all-or-nothing application of an operation list: `some` of the
final map when every `apply_delta` succeeds, `none` otherwise.  Used to
state what an atomic COMMIT would be. -/
def applyList (txid : String) : List Op → Accounts → Option Accounts
  | [], a => some a
  | op :: rest, a =>
    match apply_delta txid a op.account_id op.delta with
    | some (a', _) => applyList txid rest a'
    | none => none

/-- What an existing participant state file can contain at startup. -/
inductive StateFileContents
  | absent
  | invalidJson
  | validJson (m : Accounts)
deriving DecidableEq, Repr

/-- `AccountStore._load_state`: a missing file yields an empty map, and a
file that is not valid JSON is caught and also yields an empty map. -/
def load_state : StateFileContents → Accounts
  | StateFileContents.absent => []
  | StateFileContents.invalidJson => []
  | StateFileContents.validJson m => m

/-- `run_node` startup: the store is built first (its loader never raises on
state-file contents), then the server socket is bound; only a bind failure
propagates out of startup. -/
def run_node_startup (sf : StateFileContents) (bindOk : Bool) : Except String Accounts :=
  if bindOk then Except.ok (load_state sf) else Except.error "bind failed"

/- ------------------------------------------------------------------
Coordinator (coordinator.py)
------------------------------------------------------------------ -/

/-- One line of `coordinator_tx_log.jsonl`, as written by
`Coordinator._log_transaction` (timestamp elided). -/
structure TxLogEntry where
  txid : String
  phase : String
  node_ops : Option (List (String × List Op))
  status : Option String
deriving DecidableEq, Repr

/-- Build a log entry the way `_log_transaction` does. -/
def mkEntry (txid phase : String) (node_ops : Option (List (String × List Op)))
    (status : Option String) : TxLogEntry :=
  ⟨txid, phase, node_ops, status⟩

/-- A message the coordinator sends to a participant
(`_prepare_on_node`, `_commit_on_node`, `_abort_on_node`). -/
inductive CoordMsg
  | prepareTo (node txid : String) (operations : List Op)
  | commitTo (node txid : String) (operations : List Op)
  | abortTo (node txid : String)
deriving DecidableEq, Repr

/-- One parsed line of the recovery scan in
`_recover_incomplete_transactions`: START/PREPARE/COMMIT (re)insert the
txid into the incomplete dict, COMPLETE/ABORT remove it, anything else is
ignored. -/
def recoveryStep (d : List (String × TxLogEntry)) (e : TxLogEntry) :
    List (String × TxLogEntry) :=
  if e.phase = "START" ∨ e.phase = "PREPARE" ∨ e.phase = "COMMIT" then
    dictSet e.txid e d
  else if e.phase = "COMPLETE" ∨ e.phase = "ABORT" then
    dictPop e.txid d
  else d

/-- The full scan of the coordinator log that builds `incomplete_txs`. -/
def scanIncomplete (log : List TxLogEntry) : List (String × TxLogEntry) :=
  log.foldl recoveryStep []

/-- `entry.get("node_ops", {}).keys()`. -/
def entryNodes (e : TxLogEntry) : List String := keys (e.node_ops.getD [])

/-- The effect of `_recover_incomplete_transactions` on a given log: the
messages it sends to participants and the entries it appends to the log.
For every transaction left in the incomplete dict it sends ABORT to each
node of its recorded node_ops, then appends ABORT{status=recovered} and
COMPLETE{status=aborted_during_recovery}. -/
def recover (log : List TxLogEntry) : List CoordMsg × List TxLogEntry :=
  ((scanIncomplete log).flatMap
     (fun p => (entryNodes p.2).map (fun n => CoordMsg.abortTo n p.1)),
   (scanIncomplete log).flatMap
     (fun p => [mkEntry p.1 "ABORT" none (some "recovered"),
                mkEntry p.1 "COMPLETE" none (some "aborted_during_recovery")]))

/-- Python `d.setdefault(k, []).append(v)` on the node_ops dict. -/
def dictListAppend (k : String) (v : Op) :
    List (String × List Op) → List (String × List Op)
  | [] => [(k, [v])]
  | (k', vs) :: rest =>
    if k' = k then (k', vs ++ [v]) :: rest else (k', vs) :: dictListAppend k v rest

/-- The node_ops grouping built at the start of `Coordinator.transfer`. -/
def nodeOpsFor (from_node from_account to_node to_account : String) (amount : Int) :
    List (String × List Op) :=
  dictListAppend to_node ⟨to_account, amount⟩
    (dictListAppend from_node ⟨from_account, -amount⟩ [])

/-- Outcome of one `Coordinator.transfer` call: the returned boolean, the
entries appended to the coordinator log (in order), and the messages sent
to participants (in order). -/
structure TransferOutcome where
  success : Bool
  log : List TxLogEntry
  sent : List CoordMsg
deriving DecidableEq, Repr

/-- `Coordinator.transfer`: build node_ops, log START and PREPARE, collect
one vote per node (the `votes` oracle stands for `_prepare_on_node`, which
returns true exactly when the node replies VOTE_COMMIT), then run phase 2
on the all-yes / not-all-yes branch.  The txid is a parameter (the source
draws a fresh uuid4). -/
def transfer (votes : String → Bool) (txid from_node from_account to_node to_account : String)
    (amount : Int) : TransferOutcome :=
  let node_ops := nodeOpsFor from_node from_account to_node to_account amount
  let prep := node_ops.map (fun p => CoordMsg.prepareTo p.1 txid p.2)
  if node_ops.all (fun p => votes p.1) then
    ⟨true,
     [mkEntry txid "START" (some node_ops) none,
      mkEntry txid "PREPARE" (some node_ops) none,
      mkEntry txid "COMMIT" (some node_ops) (some "all_voted_commit"),
      mkEntry txid "COMPLETE" none (some "committed")],
     prep ++ node_ops.map (fun p => CoordMsg.commitTo p.1 txid p.2)⟩
  else
    ⟨false,
     [mkEntry txid "START" (some node_ops) none,
      mkEntry txid "PREPARE" (some node_ops) none,
      mkEntry txid "ABORT" (some node_ops) (some "vote_abort"),
      mkEntry txid "COMPLETE" none (some "aborted")],
     prep ++ node_ops.map (fun p => CoordMsg.abortTo p.1 txid)⟩

/-- The value found under the `amount` key of a TRANSFER request: either
something `int(.)` coerces (any integer, also zero or negative) or
something on which `int(.)` raises. -/
inductive AmountField
  | coercible (n : Int)
  | uncoercible
deriving DecidableEq, Repr

/-- The fields of a client TRANSFER message; `none` models a missing key
(indexing it raises KeyError). -/
structure TransferFields where
  from_node : Option String
  from_account : Option String
  to_node : Option String
  to_account : Option String
  amount : Option AmountField
deriving DecidableEq, Repr

/-- A client message as seen by `handle_client`. -/
inductive ClientMsg
  | transferMsg (f : TransferFields)
  | otherMsg (t : String)
deriving DecidableEq, Repr

/-- A reply the coordinator sends to a client. -/
inductive ClientReply
  | transferResult (success : Bool)
  | errorReply (err : String)
deriving DecidableEq, Repr

/-- What the client observes from one `handle_client` call: either a reply
was sent before the connection closed, or an exception was raised inside
the handler and the connection closed with no reply at all. -/
inductive ClientOutcome
  | sentReply (r : ClientReply)
  | noReply
deriving DecidableEq, Repr

/-- `handle_client` of coordinator.py.  The boolean records whether
`Coordinator.transfer` (a 2PC round) was invoked.  A missing field or an
uncoercible amount raises before `transfer` is called, so the client gets
no reply; any coercible amount (positive or not) reaches `transfer`. -/
def handle_client (votes : String → Bool) (txid : String) (m : ClientMsg) :
    ClientOutcome × Bool :=
  match m with
  | ClientMsg.otherMsg _ =>
      (ClientOutcome.sentReply (ClientReply.errorReply "Unknown client message"), false)
  | ClientMsg.transferMsg f =>
      match f.from_node, f.from_account, f.to_node, f.to_account, f.amount with
      | some fn, some fa, some tn, some ta, some (AmountField.coercible n) =>
          (ClientOutcome.sentReply (ClientReply.transferResult
              (transfer votes txid fn fa tn ta n).success), true)
      | _, _, _, _, _ => (ClientOutcome.noReply, false)

/- ------------------------------------------------------------------
Theorems
------------------------------------------------------------------ -/

/-- The default-0 read of a map all of whose entries are non-negative is
non-negative. -/
theorem getD_nonneg : ∀ (accs : Accounts), (∀ p ∈ accs, 0 ≤ p.2) →
    ∀ k, 0 ≤ getD accs k := by
  intro accs
  induction accs with
  | nil => intro _ k; simp [getD]
  | cons q rest ih =>
    intro h k
    obtain ⟨k', v⟩ := q
    simp only [getD]
    split
    · exact h (k', v) (List.mem_cons_self _ _)
    · exact ih (fun p hp => h p (List.mem_cons_of_mem _ hp)) k

/-- Writing a non-negative value preserves non-negativity of all entries. -/
theorem dictSet_nonneg : ∀ (accs : Accounts), (∀ p ∈ accs, 0 ≤ p.2) →
    ∀ (k : String) (v : Int), 0 ≤ v → ∀ p ∈ dictSet k v accs, 0 ≤ p.2 := by
  intro accs
  induction accs with
  | nil =>
    intro _ k v hv p hp
    simp only [dictSet, List.mem_singleton] at hp
    subst hp
    exact hv
  | cons q rest ih =>
    intro h k v hv p hp
    obtain ⟨k', v'⟩ := q
    simp only [dictSet] at hp
    split at hp
    · rcases List.mem_cons.mp hp with h1 | h1
      · subst h1; exact hv
      · exact h p (List.mem_cons_of_mem _ h1)
    · rcases List.mem_cons.mp hp with h1 | h1
      · subst h1; exact h (k', v') (List.mem_cons_self _ _)
      · exact ih (fun q hq => h q (List.mem_cons_of_mem _ hq)) k v hv p h1

/-- A successful `apply_delta` passed the non-negativity check and installed
the new balance. -/
theorem apply_delta_some (txid : String) (accs : Accounts) (acc : String) (delta : Int)
    (accs' : Accounts) (r : NodeLogRec)
    (h : apply_delta txid accs acc delta = some (accs', r)) :
    0 ≤ getD accs acc + delta ∧ accs' = dictSet acc (getD accs acc + delta) accs := by
  simp only [apply_delta] at h
  split at h
  · cases h
  · next hc =>
      cases h
      exact ⟨le_of_not_lt hc, rfl⟩

/-- The COMMIT loop preserves non-negativity of every entry. -/
theorem runCommit_nonneg (txid : String) : ∀ (ops : List Op) (accs : Accounts),
    (∀ p ∈ accs, 0 ≤ p.2) → ∀ p ∈ (runCommit txid ops accs).1, 0 ≤ p.2 := by
  intro ops
  induction ops with
  | nil => intro accs h; exact h
  | cons op rest ih =>
    intro accs h
    cases hd : apply_delta txid accs op.account_id op.delta with
    | none => simp only [runCommit, hd]; exact h
    | some pr =>
        obtain ⟨accs', r⟩ := pr
        simp only [runCommit, hd]
        refine ih accs' ?_
        have hs := apply_delta_some txid accs op.account_id op.delta accs' r hd
        rw [hs.2]
        exact dictSet_nonneg accs h op.account_id _ hs.1

/-- Claim C3: assuming every balance is non-negative, handling any single
participant request (PREPARE, COMMIT, ABORT, READ, or an unknown type)
preserves non-negativity of every entry of the accounts map, and the
balance a READ reply reports is non-negative. -/
theorem participant_preserves_nonneg (m : NodeMsg) (accounts : Accounts)
    (held : List String) (h : ∀ p ∈ accounts, 0 ≤ p.2) :
    (∀ p ∈ (handle_connection m accounts held).accounts, 0 ≤ p.2) ∧
    (∀ a b, (handle_connection m accounts held).reply = Reply.readResult a b → 0 ≤ b) := by
  cases m with
  | prepareMsg txid ops =>
      constructor
      · simp only [handle_connection, handle_prepare]
        split
        · exact h
        · split <;> exact h
      · simp only [handle_connection, handle_prepare]
        split
        · intro a b hb; cases hb
        · split <;> (intro a b hb; cases hb)
  | commitMsg txid ops =>
      constructor
      · simp only [handle_connection, handle_commit]
        split <;> exact runCommit_nonneg txid ops accounts h
      · simp only [handle_connection, handle_commit]
        split <;> (intro a b hb; cases hb)
  | abortMsg txid =>
      exact ⟨h, fun a b hb => by cases hb⟩
  | readMsg acc =>
      refine ⟨h, fun a b hb => ?_⟩
      cases hb
      exact getD_nonneg accounts h acc
  | unknownMsg t =>
      exact ⟨h, fun a b hb => by cases hb⟩

/-- Witness for C3 at a concrete READ. -/
theorem participant_preserves_nonneg_witness :
    (∀ p ∈ (handle_connection (NodeMsg.readMsg "A") [("A", 5)] []).accounts, 0 ≤ p.2) ∧
    (∀ a b, (handle_connection (NodeMsg.readMsg "A") [("A", 5)] []).reply =
        Reply.readResult a b → 0 ≤ b) :=
  participant_preserves_nonneg (NodeMsg.readMsg "A") [("A", 5)] [] (by decide)

/-- The COMMIT loop either applies every operation (ok flag true) or stops
at the first infeasible operation, leaving exactly the preceding prefix
applied. -/
theorem runCommit_spec (txid : String) : ∀ (ops : List Op) (accs : Accounts),
    ((runCommit txid ops accs).2.2 = true ∧
       applyList txid ops accs = some (runCommit txid ops accs).1) ∨
    ((runCommit txid ops accs).2.2 = false ∧
       ∃ pre o post, ops = pre ++ o :: post ∧
         applyList txid pre accs = some (runCommit txid ops accs).1 ∧
         apply_delta txid (runCommit txid ops accs).1 o.account_id o.delta = none) := by
  intro ops
  induction ops with
  | nil => intro accs; left; exact ⟨rfl, rfl⟩
  | cons op rest ih =>
    intro accs
    cases hd : apply_delta txid accs op.account_id op.delta with
    | none =>
        right
        have hr : runCommit txid (op :: rest) accs = (accs, [], false) := by
          simp only [runCommit, hd]
        rw [hr]
        exact ⟨rfl, [], op, rest, rfl, rfl, hd⟩
    | some pr =>
        obtain ⟨accs', r⟩ := pr
        have hr : runCommit txid (op :: rest) accs =
            ((runCommit txid rest accs').1, r :: (runCommit txid rest accs').2.1,
             (runCommit txid rest accs').2.2) := by
          simp only [runCommit, hd]
        have ha : applyList txid (op :: rest) accs = applyList txid rest accs' := by
          simp only [applyList, hd]
        rcases ih accs' with ⟨h1, h2⟩ | ⟨h1, pre, o, post, he, h2, h3⟩
        · left
          rw [hr, ha]
          exact ⟨h1, h2⟩
        · right
          rw [hr]
          refine ⟨h1, op :: pre, o, post, by simp [he], ?_, h3⟩
          have ha2 : applyList txid (op :: pre) accs = applyList txid pre accs' := by
            simp only [applyList, hd]
          rw [ha2]
          exact h2

/-- Claim C2 (amended): a participant COMMIT applies its operation list
atomically only on full success — on ACK{COMMITTED} the final map is the
all-or-nothing application of the whole list; on ACK{FAILED} the handler
has stopped at the first infeasible operation and the operations before it
remain applied (partial application persists on the accounts map). -/
theorem commit_failure_partial_apply (txid : String) (ops : List Op) (accounts : Accounts) :
    ((handle_commit txid ops accounts).reply = Reply.ack txid "COMMITTED" →
       applyList txid ops accounts = some (handle_commit txid ops accounts).accounts) ∧
    ((handle_commit txid ops accounts).reply = Reply.ack txid "FAILED" →
       ∃ pre o post, ops = pre ++ o :: post ∧
         applyList txid pre accounts = some (handle_commit txid ops accounts).accounts ∧
         apply_delta txid (handle_commit txid ops accounts).accounts o.account_id o.delta
           = none) := by
  rcases runCommit_spec txid ops accounts with ⟨h1, h2⟩ | ⟨h1, pre, o, post, he, h2, h3⟩
  · constructor
    · intro _
      simp only [handle_commit, h1, if_true]
      exact h2
    · intro hr
      simp only [handle_commit, h1, if_true] at hr
      injection hr with hx hy
      exact absurd hy (by decide)
  · constructor
    · intro hr
      simp only [handle_commit, h1, if_false] at hr
      injection hr with hx hy
      exact absurd hy (by decide)
    · intro _
      simp only [handle_commit, h1, if_false]
      exact ⟨pre, o, post, he, h2, h3⟩

/-- Witness for the amended C2 on a fully successful commit. -/
theorem commit_failure_partial_apply_witness :
    applyList "t5" [Op.mk "A" 3] ([] : Accounts) =
      some (handle_commit "t5" [Op.mk "A" 3] []).accounts :=
  (commit_failure_partial_apply "t5" [Op.mk "A" 3] []).1 (by decide)

/-- Claim C9: for every ABORT{txid} request, the participant appends an
abort log record and replies ACK{status=ABORTED}, the accounts map is
unchanged, and handling the same ABORT a second time leaves the accounts
map in the same state. -/
theorem abort_is_logged_noop_idempotent (txid : String) (accounts : Accounts)
    (held : List String) :
    (handle_connection (NodeMsg.abortMsg txid) accounts held).accounts = accounts ∧
    (handle_connection (NodeMsg.abortMsg txid) accounts held).log = [NodeLogRec.abort txid] ∧
    (handle_connection (NodeMsg.abortMsg txid) accounts held).reply =
      Reply.ack txid "ABORTED" ∧
    (handle_connection (NodeMsg.abortMsg txid)
        (handle_connection (NodeMsg.abortMsg txid) accounts held).accounts held).accounts =
      accounts := by
  exact ⟨rfl, rfl, rfl, rfl⟩

/-- Claim C8: the node_ops grouping maps from_node to the operation
(from_account, -amount) and to_node to (to_account, +amount); the sum of
all deltas is 0; and when from_node = to_node both operations appear in
one list of two entries for that single node. -/
theorem node_ops_grouping (from_node from_account to_node to_account : String)
    (amount : Int) :
    (∃ ops, (from_node, ops) ∈ nodeOpsFor from_node from_account to_node to_account amount ∧
       Op.mk from_account (-amount) ∈ ops) ∧
    (∃ ops, (to_node, ops) ∈ nodeOpsFor from_node from_account to_node to_account amount ∧
       Op.mk to_account amount ∈ ops) ∧
    (((nodeOpsFor from_node from_account to_node to_account amount).flatMap
        (fun p => p.2)).map Op.delta).sum = 0 ∧
    (from_node = to_node →
       nodeOpsFor from_node from_account to_node to_account amount =
         [(from_node, [Op.mk from_account (-amount), Op.mk to_account amount])]) := by
  by_cases h : from_node = to_node
  · subst h
    refine ⟨⟨[Op.mk from_account (-amount), Op.mk to_account amount], ?_, ?_⟩,
            ⟨[Op.mk from_account (-amount), Op.mk to_account amount], ?_, ?_⟩, ?_, ?_⟩ <;>
      simp [nodeOpsFor, dictListAppend]
  · refine ⟨⟨[Op.mk from_account (-amount)], ?_, ?_⟩,
            ⟨[Op.mk to_account amount], ?_, ?_⟩, ?_, ?_⟩ <;>
      simp [nodeOpsFor, dictListAppend, h]

/-- Witness for C8 at a same-node transfer. -/
theorem node_ops_grouping_witness :
    nodeOpsFor "N1" "A" "N1" "B" 7 = [("N1", [Op.mk "A" (-7), Op.mk "B" 7])] :=
  (node_ops_grouping "N1" "A" "N1" "B" 7).2.2.2 rfl

/-- Claim C2 counterexample: a COMMIT of the two-operation list
[(A,+10),(B,-100)] against an empty account map fails on the second
operation, yet the first operation's change to A persists: the accounts
map ends as [("A", 10)], not unchanged.  So a failing multi-operation
COMMIT does leave a lasting change, contradicting the claim. -/
theorem commit_partial_application_counterexample :
    (handle_commit "t1" [Op.mk "A" 10, Op.mk "B" (-100)] []).reply =
      Reply.ack "t1" "FAILED" ∧
    (handle_commit "t1" [Op.mk "A" 10, Op.mk "B" (-100)] []).accounts = [("A", 10)] ∧
    getD (handle_commit "t1" [Op.mk "A" 10, Op.mk "B" (-100)] []).accounts "A" ≠
      getD ([] : Accounts) "A" := by
  refine ⟨by decide, by decide, by decide⟩

/-- Claim C7 counterexample: with the state file present but not valid
JSON, startup succeeds (no nonzero exit) and the node continues with an
empty accounts map. -/
theorem invalid_state_file_counterexample :
    run_node_startup StateFileContents.invalidJson true = Except.ok ([] : Accounts) := by
  rfl

/-- Claim C7 (amended): an existing state file that is not valid JSON is
caught inside the loader; the node starts with an empty accounts map and
startup succeeds whenever the socket bind succeeds.  Startup fails only on
a bind failure. -/
theorem invalid_state_file_starts_empty (sf : StateFileContents) (bindOk : Bool) :
    load_state StateFileContents.invalidJson = ([] : Accounts) ∧
    (bindOk = true → run_node_startup sf bindOk = Except.ok (load_state sf)) ∧
    (bindOk = false → run_node_startup sf bindOk = Except.error "bind failed") := by
  cases bindOk <;> simp [run_node_startup, load_state]

/-- Witness for the amended C7. -/
theorem invalid_state_file_starts_empty_witness :
    run_node_startup StateFileContents.invalidJson true =
      Except.ok (load_state StateFileContents.invalidJson) :=
  (invalid_state_file_starts_empty StateFileContents.invalidJson true).2.1 rfl

/-- Claim C6 counterexample: a TRANSFER whose amount is the (non-positive)
integer -5 is not rejected: the handler runs a full 2PC round (the flag is
true) and the client receives TRANSFER_RESULT, not a protocol error. -/
theorem transfer_validation_counterexample :
    handle_client (fun _ => true) "t3"
        (ClientMsg.transferMsg ⟨some "N1", some "A", some "N2", some "B",
           some (AmountField.coercible (-5))⟩) =
      (ClientOutcome.sentReply (ClientReply.transferResult true), true) := by
  rfl

/-- Claim C6 (amended): a missing required field or an amount on which
integer coercion fails raises inside the handler, so the client receives
no reply at all (neither an error reply nor a TRANSFER_RESULT) and no 2PC
round runs; any amount that coerces to an integer — including zero and
negative values — leads to a full 2PC round and a TRANSFER_RESULT reply;
a non-TRANSFER message gets an ERROR reply and no 2PC round. -/
theorem client_validation_behavior (votes : String → Bool) (txid : String)
    (f : TransferFields) :
    ((f.from_node = none ∨ f.from_account = none ∨ f.to_node = none ∨
        f.to_account = none ∨ f.amount = none ∨
        f.amount = some AmountField.uncoercible) →
      handle_client votes txid (ClientMsg.transferMsg f) = (ClientOutcome.noReply, false)) ∧
    (∀ fn fa tn ta n,
      f = ⟨some fn, some fa, some tn, some ta, some (AmountField.coercible n)⟩ →
      handle_client votes txid (ClientMsg.transferMsg f) =
        (ClientOutcome.sentReply (ClientReply.transferResult
            (transfer votes txid fn fa tn ta n).success), true)) ∧
    (∀ t, handle_client votes txid (ClientMsg.otherMsg t) =
        (ClientOutcome.sentReply (ClientReply.errorReply "Unknown client message"), false)) := by
  obtain ⟨a1, a2, a3, a4, a5⟩ := f
  refine ⟨?_, ?_, fun t => rfl⟩
  · intro h
    cases a1 <;> cases a2 <;> cases a3 <;> cases a4 <;>
      first
        | rfl
        | (cases a5 with
            | none => rfl
            | some av =>
                cases av with
                | uncoercible => rfl
                | coercible n => simp_all [handle_client])
  · intro fn fa tn ta n hf
    cases hf
    rfl

/-- Witness for the amended C6 at a message with a missing from_node. -/
theorem client_validation_behavior_witness :
    handle_client (fun _ => false) "t4"
        (ClientMsg.transferMsg ⟨none, some "A", some "N2", some "B",
           some (AmountField.coercible 3)⟩) = (ClientOutcome.noReply, false) :=
  (client_validation_behavior (fun _ => false) "t4"
      ⟨none, some "A", some "N2", some "B", some (AmountField.coercible 3)⟩).1 (Or.inl rfl)

/-- Membership is preserved by the insertion step of the string sort. -/
theorem mem_insertSorted (a x : String) : ∀ (l : List String),
    x ∈ insertSorted a l ↔ x = a ∨ x ∈ l := by
  intro l
  induction l with
  | nil => simp [insertSorted]
  | cons b rest ih =>
    simp only [insertSorted]
    split
    · simp [List.mem_cons]
    · simp only [List.mem_cons, ih]
      tauto

/-- Sorting does not change membership. -/
theorem mem_sortStr (x : String) : ∀ (l : List String), x ∈ sortStr l ↔ x ∈ l := by
  intro l
  induction l with
  | nil => simp [sortStr]
  | cons a rest ih =>
    simp only [sortStr, mem_insertSorted, List.mem_cons, ih]

/-- The touched-account list contains exactly the account ids of the
operations. -/
theorem mem_sortedTouched (x : String) (ops : List Op) :
    x ∈ sortedTouched ops ↔ ∃ op ∈ ops, op.account_id = x := by
  simp [sortedTouched, mem_sortStr, List.mem_dedup, List.mem_map]

/-- Claim C5: the participant replies VOTE_COMMIT to PREPARE{txid, ops} iff
no distinct touched account's lock is held (all non-blocking acquires
succeed) and simulating the operations in order from current balances never
goes negative; a held lock yields prepare_failed{lock_contention_on_acc}
and VOTE_ABORT, an infeasible simulation yields
prepare_failed{insufficient_balance} and VOTE_ABORT, and the success case
logs prepare_ok{ops} with the VOTE_COMMIT reply. -/
theorem prepare_vote_characterization (txid : String) (ops : List Op)
    (accounts : Accounts) (held : List String) :
    ((handle_prepare txid ops accounts held).reply = Reply.voteCommit txid ↔
       ((∀ op ∈ ops, held.contains op.account_id = false) ∧
        (simOps ops (tempSeed accounts (sortedTouched ops))).isSome = true)) ∧
    (∀ acc, (sortedTouched ops).find? (fun a => held.contains a) = some acc →
       (handle_prepare txid ops accounts held).log =
           [NodeLogRec.prepare_failed txid ("lock_contention_on_" ++ acc)] ∧
       (handle_prepare txid ops accounts held).reply = Reply.voteAbort txid) ∧
    ((sortedTouched ops).find? (fun a => held.contains a) = none →
       (simOps ops (tempSeed accounts (sortedTouched ops))).isSome = false →
       (handle_prepare txid ops accounts held).log =
           [NodeLogRec.prepare_failed txid "insufficient_balance"] ∧
       (handle_prepare txid ops accounts held).reply = Reply.voteAbort txid) ∧
    ((handle_prepare txid ops accounts held).reply = Reply.voteCommit txid →
       (handle_prepare txid ops accounts held).log = [NodeLogRec.prepare_ok txid ops]) := by
  cases hf : (sortedTouched ops).find? (fun a => held.contains a) with
  | some acc =>
      have hr : handle_prepare txid ops accounts held =
          ⟨accounts, [NodeLogRec.prepare_failed txid ("lock_contention_on_" ++ acc)],
           Reply.voteAbort txid⟩ := by
        simp only [handle_prepare, hf]
      refine ⟨?_, ?_, ?_, ?_⟩
      · rw [hr]
        constructor
        · intro hx; cases hx
        · rintro ⟨hall, _⟩
          have hmem := List.mem_of_find?_eq_some hf
          have hp := List.find?_some hf
          rcases (mem_sortedTouched acc ops).mp hmem with ⟨op, hop, hopid⟩
          have hfalse := hall op hop
          rw [hopid] at hfalse
          rw [hfalse] at hp
          cases hp
      · intro acc' ha
        cases ha
        rw [hr]
        exact ⟨rfl, rfl⟩
      · intro hn
        cases hn
      · rw [hr]
        intro hx
        cases hx
  | none =>
      cases hs : simOps ops (tempSeed accounts (sortedTouched ops)) with
      | none =>
          have hr : handle_prepare txid ops accounts held =
              ⟨accounts, [NodeLogRec.prepare_failed txid "insufficient_balance"],
               Reply.voteAbort txid⟩ := by
            simp only [handle_prepare, hf, hs]
          refine ⟨?_, ?_, ?_, ?_⟩
          · rw [hr]
            constructor
            · intro hx; cases hx
            · rintro ⟨_, hsome⟩
              simp at hsome
          · intro acc' ha
            cases ha
          · intro _ _
            rw [hr]
            exact ⟨rfl, rfl⟩
          · rw [hr]
            intro hx
            cases hx
      | some tmp =>
          have hr : handle_prepare txid ops accounts held =
              ⟨accounts, [NodeLogRec.prepare_ok txid ops], Reply.voteCommit txid⟩ := by
            simp only [handle_prepare, hf, hs]
          refine ⟨?_, ?_, ?_, ?_⟩
          · rw [hr]
            constructor
            · intro _
              refine ⟨?_, rfl⟩
              intro op hop
              have hnone := List.find?_eq_none.mp hf
              have hin : op.account_id ∈ sortedTouched ops :=
                (mem_sortedTouched op.account_id ops).mpr ⟨op, hop, rfl⟩
              have hnc := hnone _ hin
              simpa using hnc
            · intro _
              rfl
          · intro acc' ha
            cases ha
          · intro _ hsome
            simp at hsome
          · rw [hr]
            intro _
            rfl

/-- Witness for C5 at a concrete feasible PREPARE. -/
theorem prepare_vote_characterization_witness :
    (handle_prepare "t6" [Op.mk "A" 2] [("A", 3)] []).log =
      [NodeLogRec.prepare_ok "t6" [Op.mk "A" 2]] :=
  (prepare_vote_characterization "t6" [Op.mk "A" 2] [("A", 3)] []).2.2.2 (by decide)

/-- Claim C1 counterexample: a coordinator log whose only entry is a COMMIT
for t1 (commit-decided, no COMPLETE) is concluded as aborted by startup
recovery: it sends ABORT (never COMMIT) to the participant and appends
ABORT{status=recovered} and COMPLETE{status=aborted_during_recovery} — not
COMPLETE{status=committed_during_recovery}. -/
theorem recovery_aborts_committed_counterexample :
    recover [mkEntry "t1" "COMMIT" (some [("N1", [Op.mk "A" 10])]) (some "all_voted_commit")] =
      ([CoordMsg.abortTo "N1" "t1"],
       [mkEntry "t1" "ABORT" none (some "recovered"),
        mkEntry "t1" "COMPLETE" none (some "aborted_during_recovery")]) := by
  rfl

/-- Claim C1 (amended): startup recovery treats every transaction left in
the incomplete scan — including commit-decided ones, since a COMMIT entry
also inserts its txid — as aborted: for each such txid it sends ABORT{txid}
to every node of the entry's node_ops and appends ABORT{status=recovered}
and COMPLETE{status=aborted_during_recovery}; every message recovery sends
is an ABORT (it never re-sends COMMIT), and no appended entry carries
status committed_during_recovery. -/
theorem recovery_aborts_all_incomplete (log : List TxLogEntry) :
    (∀ p ∈ scanIncomplete log,
       mkEntry p.1 "ABORT" none (some "recovered") ∈ (recover log).2 ∧
       mkEntry p.1 "COMPLETE" none (some "aborted_during_recovery") ∈ (recover log).2 ∧
       (∀ n ∈ entryNodes p.2, CoordMsg.abortTo n p.1 ∈ (recover log).1)) ∧
    (∀ m ∈ (recover log).1, ∃ n t, m = CoordMsg.abortTo n t) ∧
    (∀ e ∈ (recover log).2, e.status ≠ some "committed_during_recovery") := by
  refine ⟨?_, ?_, ?_⟩
  · intro p hp
    refine ⟨?_, ?_, ?_⟩
    · exact List.mem_flatMap.mpr ⟨p, hp, by simp⟩
    · exact List.mem_flatMap.mpr ⟨p, hp, by simp⟩
    · intro n hn
      exact List.mem_flatMap.mpr ⟨p, hp, List.mem_map.mpr ⟨n, hn, rfl⟩⟩
  · intro m hm
    rcases List.mem_flatMap.mp hm with ⟨p, hp, hmem⟩
    rcases List.mem_map.mp hmem with ⟨n, hn, hEq⟩
    exact ⟨n, p.1, hEq.symm⟩
  · intro e he
    rcases List.mem_flatMap.mp he with ⟨p, hp, hmem⟩
    simp only [List.mem_cons, List.mem_singleton] at hmem
    rcases hmem with h | h | h
    · rw [h]; simp [mkEntry]
    · rw [h]; simp [mkEntry]
    · cases h

/-- Witness for the amended C1 at a log with one dangling PREPARE. -/
theorem recovery_aborts_all_incomplete_witness :
    mkEntry "t2" "ABORT" none (some "recovered") ∈
      (recover [mkEntry "t2" "PREPARE" none none]).2 :=
  (((recovery_aborts_all_incomplete [mkEntry "t2" "PREPARE" none none]).1)
      ("t2", mkEntry "t2" "PREPARE" none none) (by decide)).1

/-- Membership in the keys after a dict update. -/
theorem mem_keys_dictSet {β : Type} (x k : String) (v : β) : ∀ (d : List (String × β)),
    x ∈ keys (dictSet k v d) ↔ x = k ∨ x ∈ keys d := by
  intro d
  induction d with
  | nil => simp [dictSet, keys]
  | cons q rest ih =>
    obtain ⟨k', v'⟩ := q
    simp only [dictSet]
    split
    · next hk =>
        subst hk
        simp only [keys, List.map_cons, List.mem_cons]
        tauto
    · simp only [keys, List.map_cons, List.mem_cons] at ih ⊢
      rw [ih]
      tauto

/-- A dict update keeps the keys duplicate-free. -/
theorem keys_dictSet_nodup {β : Type} (k : String) (v : β) : ∀ (d : List (String × β)),
    (keys d).Nodup → (keys (dictSet k v d)).Nodup := by
  intro d
  induction d with
  | nil => intro _; simp [dictSet, keys]
  | cons q rest ih =>
    intro h
    obtain ⟨k', v'⟩ := q
    simp only [keys, List.map_cons, List.nodup_cons] at h
    simp only [dictSet]
    split
    · next hk =>
        subst hk
        simp only [keys, List.map_cons, List.nodup_cons]
        exact h
    · next hk =>
        simp only [keys, List.map_cons, List.nodup_cons]
        refine ⟨?_, ih h.2⟩
        intro hmem
        rcases (mem_keys_dictSet k' k v rest).mp hmem with h1 | h1
        · exact hk h1
        · exact h.1 h1

/-- Popping a key only removes keys. -/
theorem mem_keys_dictPop {β : Type} (x k : String) : ∀ (d : List (String × β)),
    x ∈ keys (dictPop k d) → x ∈ keys d := by
  intro d
  induction d with
  | nil => intro h; exact h
  | cons q rest ih =>
    obtain ⟨k', v'⟩ := q
    simp only [dictPop]
    split
    · intro h
      exact List.mem_cons_of_mem _ h
    · simp only [keys, List.map_cons, List.mem_cons]
      rintro (h | h)
      · exact Or.inl h
      · exact Or.inr (ih h)

/-- Popping a key keeps the keys duplicate-free. -/
theorem keys_dictPop_nodup {β : Type} (k : String) : ∀ (d : List (String × β)),
    (keys d).Nodup → (keys (dictPop k d)).Nodup := by
  intro d
  induction d with
  | nil => intro h; exact h
  | cons q rest ih =>
    intro h
    obtain ⟨k', v'⟩ := q
    simp only [keys, List.map_cons, List.nodup_cons] at h
    simp only [dictPop]
    split
    · exact h.2
    · simp only [keys, List.map_cons, List.nodup_cons]
      exact ⟨fun hm => h.1 (mem_keys_dictPop k' k rest hm), ih h.2⟩

/-- Popping an absent key is the identity. -/
theorem dictPop_of_not_mem {β : Type} (k : String) : ∀ (d : List (String × β)),
    k ∉ keys d → dictPop k d = d := by
  intro d
  induction d with
  | nil => intro _; rfl
  | cons q rest ih =>
    intro h
    obtain ⟨k', v'⟩ := q
    simp only [keys, List.map_cons, List.mem_cons] at h
    push_neg at h
    simp only [dictPop]
    rw [if_neg (fun hh => h.1 hh.symm), ih h.2]

/-- One recovery-scan step keeps the incomplete dict's keys
duplicate-free. -/
theorem recoveryStep_nodup (d : List (String × TxLogEntry)) (e : TxLogEntry)
    (h : (keys d).Nodup) : (keys (recoveryStep d e)).Nodup := by
  simp only [recoveryStep]
  split
  · exact keys_dictSet_nodup _ _ d h
  · split
    · exact keys_dictPop_nodup _ d h
    · exact h

/-- The incomplete dict built by the recovery scan has duplicate-free
keys. -/
theorem scanIncomplete_nodup (log : List TxLogEntry) :
    (keys (scanIncomplete log)).Nodup := by
  suffices h : ∀ (l : List TxLogEntry) (d : List (String × TxLogEntry)),
      (keys d).Nodup → (keys (List.foldl recoveryStep d l)).Nodup by
    exact h log [] (by simp [keys])
  intro l
  induction l with
  | nil => intro d h; exact h
  | cons e rest ih =>
    intro d h
    exact ih _ (recoveryStep_nodup d e h)

/-- Folding the recovery-appended ABORT/COMPLETE pairs over the incomplete
dict they were generated from empties it. -/
theorem recoveryAppends_drain : ∀ (S : List (String × TxLogEntry)), (keys S).Nodup →
    List.foldl recoveryStep S
      (S.flatMap (fun p => [mkEntry p.1 "ABORT" none (some "recovered"),
                            mkEntry p.1 "COMPLETE" none (some "aborted_during_recovery")]))
      = [] := by
  intro S
  induction S with
  | nil => intro _; rfl
  | cons q S' ih =>
    intro h
    obtain ⟨t, e⟩ := q
    simp only [keys, List.map_cons, List.nodup_cons] at h
    have hfm : ((t, e) :: S').flatMap
        (fun p => [mkEntry p.1 "ABORT" none (some "recovered"),
                   mkEntry p.1 "COMPLETE" none (some "aborted_during_recovery")]) =
        mkEntry t "ABORT" none (some "recovered") ::
          mkEntry t "COMPLETE" none (some "aborted_during_recovery") ::
          S'.flatMap (fun p => [mkEntry p.1 "ABORT" none (some "recovered"),
                                mkEntry p.1 "COMPLETE" none (some "aborted_during_recovery")]) := by
      rfl
    rw [hfm]
    simp only [List.foldl_cons]
    have h1 : recoveryStep ((t, e) :: S') (mkEntry t "ABORT" none (some "recovered")) = S' := by
      simp only [recoveryStep, mkEntry]
      rw [if_neg (by decide), if_pos (by decide)]
      simp [dictPop]
    have h2 : recoveryStep S' (mkEntry t "COMPLETE" none (some "aborted_during_recovery"))
        = S' := by
      simp only [recoveryStep, mkEntry]
      rw [if_neg (by decide), if_pos (by decide)]
      exact dictPop_of_not_mem t S' h.1
    rw [h1, h2]
    exact ih h.2

/-- Claim C10: coordinator recovery is idempotent on the transaction log:
after recovery appends its ABORT and COMPLETE entries, scanning the
resulting log with the same incomplete-transaction rule yields an empty
set, so a second recovery run sends nothing and appends nothing. -/
theorem recovery_idempotent (log : List TxLogEntry) :
    scanIncomplete (log ++ (recover log).2) = [] ∧
    recover (log ++ (recover log).2) = ([], []) := by
  have h1 : scanIncomplete (log ++ (recover log).2) = [] := by
    have hs : scanIncomplete (log ++ (recover log).2) =
        List.foldl recoveryStep (scanIncomplete log) (recover log).2 := by
      simp [scanIncomplete, List.foldl_append]
    rw [hs]
    exact recoveryAppends_drain (scanIncomplete log) (scanIncomplete_nodup log)
  refine ⟨h1, ?_⟩
  have h1' : scanIncomplete (log ++ (scanIncomplete log).flatMap
      (fun p => [mkEntry p.1 "ABORT" none (some "recovered"),
                 mkEntry p.1 "COMPLETE" none (some "aborted_during_recovery")])) = [] := h1
  simp only [recover]
  rw [h1']
  simp

/-- Claim C4: every transfer call appends START and PREPARE entries carrying
node_ops for its txid; it returns true exactly when every involved node's
vote is VOTE_COMMIT, in which case the log continues with
COMMIT{status=all_voted_commit} and COMPLETE{status=committed} and a COMMIT
message goes to every node of node_ops after the PREPAREs; otherwise the
log continues with ABORT{status=vote_abort} and COMPLETE{status=aborted},
an ABORT message goes to every node of node_ops (including any that voted
NO), and false is returned.  (The source draws the txid fresh via uuid4;
here it is a parameter.) -/
theorem transfer_two_phase (votes : String → Bool)
    (txid from_node from_account to_node to_account : String) (amount : Int) :
    ((transfer votes txid from_node from_account to_node to_account amount).log.take 2 =
       [mkEntry txid "START"
          (some (nodeOpsFor from_node from_account to_node to_account amount)) none,
        mkEntry txid "PREPARE"
          (some (nodeOpsFor from_node from_account to_node to_account amount)) none]) ∧
    ((transfer votes txid from_node from_account to_node to_account amount).success = true ↔
       (nodeOpsFor from_node from_account to_node to_account amount).all
         (fun p => votes p.1) = true) ∧
    ((nodeOpsFor from_node from_account to_node to_account amount).all
         (fun p => votes p.1) = true →
       (transfer votes txid from_node from_account to_node to_account amount).log =
         [mkEntry txid "START"
            (some (nodeOpsFor from_node from_account to_node to_account amount)) none,
          mkEntry txid "PREPARE"
            (some (nodeOpsFor from_node from_account to_node to_account amount)) none,
          mkEntry txid "COMMIT"
            (some (nodeOpsFor from_node from_account to_node to_account amount))
            (some "all_voted_commit"),
          mkEntry txid "COMPLETE" none (some "committed")] ∧
       (transfer votes txid from_node from_account to_node to_account amount).sent =
         (nodeOpsFor from_node from_account to_node to_account amount).map
             (fun p => CoordMsg.prepareTo p.1 txid p.2) ++
           (nodeOpsFor from_node from_account to_node to_account amount).map
             (fun p => CoordMsg.commitTo p.1 txid p.2)) ∧
    ((nodeOpsFor from_node from_account to_node to_account amount).all
         (fun p => votes p.1) = false →
       (transfer votes txid from_node from_account to_node to_account amount).success =
           false ∧
       (transfer votes txid from_node from_account to_node to_account amount).log =
         [mkEntry txid "START"
            (some (nodeOpsFor from_node from_account to_node to_account amount)) none,
          mkEntry txid "PREPARE"
            (some (nodeOpsFor from_node from_account to_node to_account amount)) none,
          mkEntry txid "ABORT"
            (some (nodeOpsFor from_node from_account to_node to_account amount))
            (some "vote_abort"),
          mkEntry txid "COMPLETE" none (some "aborted")] ∧
       (transfer votes txid from_node from_account to_node to_account amount).sent =
         (nodeOpsFor from_node from_account to_node to_account amount).map
             (fun p => CoordMsg.prepareTo p.1 txid p.2) ++
           (nodeOpsFor from_node from_account to_node to_account amount).map
             (fun p => CoordMsg.abortTo p.1 txid)) := by
  cases hv : (nodeOpsFor from_node from_account to_node to_account amount).all
      (fun p => votes p.1) with
  | true =>
      have hr : transfer votes txid from_node from_account to_node to_account amount =
          ⟨true,
           [mkEntry txid "START"
              (some (nodeOpsFor from_node from_account to_node to_account amount)) none,
            mkEntry txid "PREPARE"
              (some (nodeOpsFor from_node from_account to_node to_account amount)) none,
            mkEntry txid "COMMIT"
              (some (nodeOpsFor from_node from_account to_node to_account amount))
              (some "all_voted_commit"),
            mkEntry txid "COMPLETE" none (some "committed")],
           (nodeOpsFor from_node from_account to_node to_account amount).map
               (fun p => CoordMsg.prepareTo p.1 txid p.2) ++
             (nodeOpsFor from_node from_account to_node to_account amount).map
               (fun p => CoordMsg.commitTo p.1 txid p.2)⟩ := by
        simp [transfer, hv]
      rw [hr]
      refine ⟨rfl, by simp, ?_, ?_⟩
      · intro _
        exact ⟨rfl, rfl⟩
      · intro hfalse
        cases hfalse
  | false =>
      have hr : transfer votes txid from_node from_account to_node to_account amount =
          ⟨false,
           [mkEntry txid "START"
              (some (nodeOpsFor from_node from_account to_node to_account amount)) none,
            mkEntry txid "PREPARE"
              (some (nodeOpsFor from_node from_account to_node to_account amount)) none,
            mkEntry txid "ABORT"
              (some (nodeOpsFor from_node from_account to_node to_account amount))
              (some "vote_abort"),
            mkEntry txid "COMPLETE" none (some "aborted")],
           (nodeOpsFor from_node from_account to_node to_account amount).map
               (fun p => CoordMsg.prepareTo p.1 txid p.2) ++
             (nodeOpsFor from_node from_account to_node to_account amount).map
               (fun p => CoordMsg.abortTo p.1 txid)⟩ := by
        simp [transfer, hv]
      rw [hr]
      refine ⟨rfl, by simp, ?_, ?_⟩
      · intro htrue
        cases htrue
      · intro _
        exact ⟨rfl, rfl, rfl⟩

/-- Witness for C4: a two-node transfer where both nodes vote yes. -/
theorem transfer_two_phase_witness :
    (transfer (fun _ => true) "t9" "N1" "A" "N2" "B" 5).log =
      [mkEntry "t9" "START" (some (nodeOpsFor "N1" "A" "N2" "B" 5)) none,
       mkEntry "t9" "PREPARE" (some (nodeOpsFor "N1" "A" "N2" "B" 5)) none,
       mkEntry "t9" "COMMIT" (some (nodeOpsFor "N1" "A" "N2" "B" 5))
         (some "all_voted_commit"),
       mkEntry "t9" "COMPLETE" none (some "committed")] :=
  ((transfer_two_phase (fun _ => true) "t9" "N1" "A" "N2" "B" 5).2.2.1 (by decide)).1

end TwoPC
